import Mathlib

/-!
Shallow embedding of the Envoy thrift_proxy router
(`source/extensions/filters/network/thrift_proxy/router/router_impl.cc`):
the route-matching engine (`RouteEntryImplBase`, `MethodNameRouteEntryImpl`,
`ServiceNameRouteEntryImpl`, `RouteMatcher`) and the upstream-request state
machine (`Router::UpstreamRequest`), followed by theorems about them.

Machine integers are modelled as `Nat`; C++ exceptions as `Except String`;
side effects on the downstream session (local replies, connection resets,
outlier-detector reports, stats charges) as an explicit list of `Action`s
returned alongside the next state.
-/

namespace ThriftRouter

/-- Thrift message types (`MessageType` enum), restricted to the values the
router inspects. -/
inductive MessageType where
  | Call
  | Oneway
  | Reply
  | Exception
deriving DecidableEq

/-- `ConnectionPool::PoolFailureReason` values handled by
`UpstreamRequest::onResetStream`. -/
inductive PoolFailureReason where
  | Overflow
  | LocalConnectionFailure
  | RemoteConnectionFailure
  | Timeout
deriving DecidableEq

/-- `Upstream::Outlier::Result` values reported by the router. -/
inductive OutlierResult where
  | LocalOriginConnectSuccess
  | LocalOriginConnectFailed
  | LocalOriginTimeout
  | ExtOriginRequestSuccess
  | ExtOriginRequestFailed
deriving DecidableEq

/-- `AppExceptionType` values used by the router for local replies. -/
inductive AppExceptionType where
  | UnknownMethod
  | InternalError
deriving DecidableEq

/-- Observable side effects on the collaborators (downstream callbacks,
outlier detector, stats), emitted by the state-machine operations. -/
inductive Action where
  | sendLocalReply (t : AppExceptionType) (msg : String) (endStream : Bool)
  | resetDownstreamConnection
  | putOutlierResult (r : OutlierResult)
  | chargeLatencyHistogram
  | cancelPoolAcquisition
  | closeUpstreamConnection
  | continueDecoding
deriving DecidableEq

/-- Header collection of a call: ordered name/value pairs. -/
abbrev Headers := List (String × String)

/-- Models `Http::HeaderMap::get(name)` (external collaborator): all values
carried by headers with the given name, in order of appearance. -/
def headersGet (hs : Headers) (name : String) : List String :=
  (hs.filter (fun p => p.1 = name)).map (fun p => p.2)

/-- `MessageMetadata` as consumed by the matcher and the upstream request:
an optional method name (`hasMethodName`/`methodName`), the message type and
the header collection. -/
structure MessageMetadata where
  methodName? : Option String
  messageType_ : MessageType
  headers : Headers

/-- `MessageMetadata::hasMethodName()`. -/
def MessageMetadata.hasMethodName (m : MessageMetadata) : Bool :=
  m.methodName?.isSome

/-- `MessageMetadata::methodName()` (only consulted under `hasMethodName`). -/
def MessageMetadata.methodName (m : MessageMetadata) : String :=
  m.methodName?.getD ""

/-- One entry of `RouteEntryImplBase::weighted_clusters_`
(`WeightedClusterEntry`): a cluster name and its configured weight. -/
structure WeightedClusterEntry where
  cluster_name_ : String
  cluster_weight_ : Nat
deriving DecidableEq

/-- Sum of the weights of a weighted-cluster list; the base-route constructor
precomputes this into `total_cluster_weight_`. -/
def sumWeights (cs : List WeightedClusterEntry) : Nat :=
  cs.foldr (fun c acc => c.cluster_weight_ + acc) 0

/-- The route object returned by `clusterEntry`: either a weighted entry,
a `DynamicRouteEntry` wrapping a header-derived cluster name, or the rule
itself (`shared_from_this`), identified by its static cluster name. -/
inductive ResolvedRoute where
  | weightedEntry (e : WeightedClusterEntry)
  | headerCluster (clusterName : String)
  | staticCluster (clusterName : String)
deriving DecidableEq

/-- `RouteEntryImplBase`: the per-rule data shared by method-name and
service-name rules. `headersMatchFn` stands for
`Http::HeaderUtility::matchHeaders(headers, config_headers_)`, an external
collaborator whose exact/regex/presence semantics the spec delegates; it is
kept abstract as a boolean predicate on the call headers. -/
structure RouteEntryImplBase where
  cluster_name_ : String
  headersMatchFn : Headers → Bool
  cluster_header_ : String
  weighted_clusters_ : List WeightedClusterEntry
  total_cluster_weight_ : Nat
  strip_service_name_ : Bool

/-- Constructor effect of `RouteEntryImplBase` on the weighted-cluster total:
`total_cluster_weight_` is the precomputed sum of the entry weights. -/
def mkRouteEntryBase (cluster_name : String) (hfn : Headers → Bool)
    (cluster_header : String) (weighted : List WeightedClusterEntry)
    (strip : Bool) : RouteEntryImplBase :=
  { cluster_name_ := cluster_name
    headersMatchFn := hfn
    cluster_header_ := cluster_header
    weighted_clusters_ := weighted
    total_cluster_weight_ := sumWeights weighted
    strip_service_name_ := strip }

/-- Modelled from the spec: `WeightedClusterUtil::pickCluster` (not under
`src/`) — "walk the list accumulating weights, return the first entry whose
cumulative weight exceeds the draw". `acc` is the cumulative weight of the
entries already passed. -/
def pickGo (sel : Nat) (acc : Nat) :
    List WeightedClusterEntry → Option WeightedClusterEntry
  | [] => none
  | c :: rest =>
      if sel < acc + c.cluster_weight_ then some c
      else pickGo sel (acc + c.cluster_weight_) rest

/-- Modelled from the spec: `WeightedClusterUtil::pickCluster` — "draw
`randomDraw % totalWeight`", then cumulative-weight search. -/
def pickCluster (clusters : List WeightedClusterEntry) (total : Nat)
    (random_value : Nat) : Option WeightedClusterEntry :=
  pickGo (random_value % total) 0 clusters

/-- `RouteEntryImplBase::clusterEntry`: weighted pick if a weighted list is
configured; else header-derived cluster (absent header yields no route, only
the first value of a multi-valued header is used); else the rule itself with
its static cluster name. -/
def RouteEntryImplBase.clusterEntry (e : RouteEntryImplBase)
    (random_value : Nat) (metadata : MessageMetadata) : Option ResolvedRoute :=
  if e.weighted_clusters_ ≠ [] then
    (pickCluster e.weighted_clusters_ e.total_cluster_weight_ random_value).map
      ResolvedRoute.weightedEntry
  else if e.cluster_header_ ≠ "" then
    match headersGet metadata.headers e.cluster_header_ with
    | [] => none
    | v :: _ => some (ResolvedRoute.headerCluster v)
  else
    some (ResolvedRoute.staticCluster e.cluster_name_)

/-- `RouteEntryImplBase::headersMatch`. -/
def RouteEntryImplBase.headersMatch (e : RouteEntryImplBase)
    (hs : Headers) : Bool :=
  e.headersMatchFn hs

/-- `MethodNameRouteEntryImpl`: a rule matching on method-name equality,
with an inversion flag. -/
structure MethodNameRouteEntryImpl where
  base : RouteEntryImplBase
  method_name_ : String
  invert_ : Bool

/-- Constructor of `MethodNameRouteEntryImpl`: throws on an empty method name
combined with inversion. -/
def MethodNameRouteEntryImpl.make (base : RouteEntryImplBase)
    (method_name : String) (invert : Bool) :
    Except String MethodNameRouteEntryImpl :=
  if method_name = "" ∧ invert = true then
    Except.error "Cannot have an empty method name with inversion enabled"
  else
    Except.ok { base := base, method_name_ := method_name, invert_ := invert }

/-- `MethodNameRouteEntryImpl::matches`: headers first; then the name
predicate (empty name is a wildcard; otherwise equality guarded by
`hasMethodName`), XORed with the inversion flag; on success the cluster is
resolved via `clusterEntry`. -/
def MethodNameRouteEntryImpl.matches (e : MethodNameRouteEntryImpl)
    (metadata : MessageMetadata) (random_value : Nat) : Option ResolvedRoute :=
  if e.base.headersMatch metadata.headers then
    if Bool.xor ((e.method_name_ = "") ||
        (metadata.hasMethodName && metadata.methodName = e.method_name_))
        e.invert_ then
      e.base.clusterEntry random_value metadata
    else none
  else none

/-- Models `absl::StartsWith(text, p)` (external): `p` heads `text`. -/
def strStartsWith (text p : String) : Bool :=
  List.isPrefixOf p.toList text.toList

/-- Models `absl::EndsWith(text, p)` (external): `p` ends `text`. -/
def strEndsWith (text p : String) : Bool :=
  List.isSuffixOf p.toList text.toList

/-- `ServiceNameRouteEntryImpl`: a rule matching on a service-name prefix of
the method name, with an inversion flag. `service_name_` holds the normalized
configured name. -/
structure ServiceNameRouteEntryImpl where
  base : RouteEntryImplBase
  service_name_ : String
  invert_ : Bool

/-- Constructor of `ServiceNameRouteEntryImpl`: throws on an empty service
name combined with inversion; otherwise normalizes a non-empty configured
name to end with the ":" delimiter. -/
def ServiceNameRouteEntryImpl.make (base : RouteEntryImplBase)
    (service_name : String) (invert : Bool) :
    Except String ServiceNameRouteEntryImpl :=
  if service_name = "" ∧ invert = true then
    Except.error "Cannot have an empty service name with inversion enabled"
  else
    Except.ok
      { base := base
        service_name_ :=
          if service_name ≠ "" ∧ strEndsWith service_name ":" = false then
            service_name ++ ":"
          else service_name
        invert_ := invert }

/-- `ServiceNameRouteEntryImpl::matches`: headers first; then the name
predicate (`absl::StartsWith(methodName, service_name_)` guarded by
`hasMethodName`, empty normalized name is a wildcard), XORed with inversion;
on success the cluster is resolved via `clusterEntry`. -/
def ServiceNameRouteEntryImpl.matches (e : ServiceNameRouteEntryImpl)
    (metadata : MessageMetadata) (random_value : Nat) : Option ResolvedRoute :=
  if e.base.headersMatch metadata.headers then
    if Bool.xor ((e.service_name_ = "") ||
        (metadata.hasMethodName &&
          strStartsWith metadata.methodName e.service_name_))
        e.invert_ then
      e.base.clusterEntry random_value metadata
    else none
  else none

/-- One entry of `RouteMatcher::routes_`: the two rule variants the
`RouteMatcher` constructor can build. -/
inductive RouteRule where
  | method (e : MethodNameRouteEntryImpl)
  | service (e : ServiceNameRouteEntryImpl)

/-- Virtual dispatch of `RouteEntryImplBase::matches` over the two variants. -/
def RouteRule.matches : RouteRule → MessageMetadata → Nat → Option ResolvedRoute
  | RouteRule.method e, m, rv => e.matches m rv
  | RouteRule.service e, m, rv => e.matches m rv

/-- Configured match name of a rule (normalized, for service-name rules). -/
def RouteRule.matchName : RouteRule → String
  | RouteRule.method e => e.method_name_
  | RouteRule.service e => e.service_name_

/-- Inversion flag of a rule. -/
def RouteRule.invertFlag : RouteRule → Bool
  | RouteRule.method e => e.invert_
  | RouteRule.service e => e.invert_

/-- One `route {}` element of the route configuration, as dispatched by the
`RouteMatcher` constructor on `match_specifier_case`. -/
inductive RouteConfig where
  | methodCfg (base : RouteEntryImplBase) (name : String) (invert : Bool)
  | serviceCfg (base : RouteEntryImplBase) (name : String) (invert : Bool)

/-- Build one rule from its configuration, as in the `RouteMatcher`
constructor switch; constructor exceptions propagate. -/
def buildRoute : RouteConfig → Except String RouteRule
  | RouteConfig.methodCfg base name invert =>
      (MethodNameRouteEntryImpl.make base name invert).map RouteRule.method
  | RouteConfig.serviceCfg base name invert =>
      (ServiceNameRouteEntryImpl.make base name invert).map RouteRule.service

/-- The `RouteMatcher` constructor: build every configured rule in order;
any constructor exception aborts the build. -/
def RouteMatcher.build : List RouteConfig → Except String (List RouteRule)
  | [] => Except.ok []
  | cfg :: rest =>
      match buildRoute cfg with
      | Except.error msg => Except.error msg
      | Except.ok r =>
          match RouteMatcher.build rest with
          | Except.error msg => Except.error msg
          | Except.ok rs => Except.ok (r :: rs)

/-- `RouteMatcher::route`: evaluate the rules in configured order and return
the first route produced. -/
def RouteMatcher.route : List RouteRule → MessageMetadata → Nat → Option ResolvedRoute
  | [], _, _ => none
  | r :: rest, m, rv =>
      match r.matches m rv with
      | some e => some e
      | none => RouteMatcher.route rest m rv

/-- `ThriftFilters::FilterStatus` values returned by `UpstreamRequest::start`. -/
inductive FilterStatus where
  | Continue
  | StopIteration
deriving DecidableEq

/-- State of one `Router::UpstreamRequest`. Handles owned by collaborators
(`conn_pool_handle_`, `conn_data_`, `conn_state_`, `upgrade_response_`) are
modelled by their nullity; `upstream_host_` carries the host address string
used in synthesized replies (`none` while no host was selected). Timestamps
are dropped: only the flags that guard behavior are kept. -/
structure UpstreamRequestState where
  messageType : MessageType
  conn_pool_handle_ : Bool
  conn_data_ : Bool
  conn_state_ : Bool
  upgrade_response_ : Bool
  upstream_host_ : Option String
  request_complete_ : Bool
  response_started_ : Bool
  response_complete_ : Bool
  charged_response_timing_ : Bool
deriving DecidableEq

/-- Constructor state of `Router::UpstreamRequest` for a call of the given
message type: every handle null, every flag cleared. -/
def initialUpstreamRequest (mt : MessageType) : UpstreamRequestState :=
  { messageType := mt
    conn_pool_handle_ := false
    conn_data_ := false
    conn_state_ := false
    upgrade_response_ := false
    upstream_host_ := none
    request_complete_ := false
    response_started_ := false
    response_complete_ := false
    charged_response_timing_ := false }

/-- `Router::UpstreamRequest::chargeResponseTiming`: no-op when already
charged or when the request was never marked complete; otherwise set the
charged flag and charge the latency histogram once. -/
def chargeResponseTiming (s : UpstreamRequestState) :
    UpstreamRequestState × List Action :=
  if s.charged_response_timing_ || !s.request_complete_ then (s, [])
  else
    ({ s with charged_response_timing_ := true }, [Action.chargeLatencyHistogram])

/-- The host description used in the synthesized connection-failure reply:
the selected host address, or "to upstream" when no host was selected. -/
def hostDescription (s : UpstreamRequestState) : String :=
  match s.upstream_host_ with
  | some addr => addr
  | none => "to upstream"

/-- Shared tail of the `RemoteConnectionFailure` and `Timeout` cases of
`onResetStream`: report the outlier result; then synthesize a local reply
naming the host if the response has not started, else reset the downstream
connection. -/
def resetRemoteOrTimeout (s : UpstreamRequestState) (acts : List Action)
    (res : OutlierResult) : UpstreamRequestState × List Action :=
  let acts := acts ++ [Action.putOutlierResult res]
  if !s.response_started_ then
    (s, acts ++ [Action.sendLocalReply AppExceptionType.InternalError
      ("connection failure \x27" ++ hostDescription s ++ "\x27") true])
  else
    (s, acts ++ [Action.resetDownstreamConnection])

/-- `Router::UpstreamRequest::onResetStream`: oneway calls reset the
downstream connection and nothing else; otherwise charge response timing and
dispatch on the failure reason as in the source switch. -/
def onResetStream (s : UpstreamRequestState) (reason : PoolFailureReason) :
    UpstreamRequestState × List Action :=
  if s.messageType = MessageType.Oneway then
    (s, [Action.resetDownstreamConnection])
  else
    let charged := chargeResponseTiming s
    match reason with
    | PoolFailureReason.Overflow =>
        (charged.1, charged.2 ++ [Action.sendLocalReply
          AppExceptionType.InternalError
          "thrift upstream request: too many connections" true])
    | PoolFailureReason.LocalConnectionFailure =>
        (charged.1, charged.2 ++
          [Action.putOutlierResult OutlierResult.LocalOriginConnectFailed,
           Action.resetDownstreamConnection])
    | PoolFailureReason.RemoteConnectionFailure =>
        resetRemoteOrTimeout charged.1 charged.2
          OutlierResult.LocalOriginConnectFailed
    | PoolFailureReason.Timeout =>
        resetRemoteOrTimeout charged.1 charged.2 OutlierResult.LocalOriginTimeout

/-- `Router::UpstreamRequest::releaseConnection`: cancel a pending pool
acquisition, clear the connection state, move the borrowed connection out
and, when requested, force-close it. -/
def releaseConnection (s : UpstreamRequestState) (close : Bool) :
    UpstreamRequestState × List Action :=
  let cancelActs : List Action :=
    if s.conn_pool_handle_ then [Action.cancelPoolAcquisition] else []
  let hadData := s.conn_data_
  let s := { s with conn_pool_handle_ := false, conn_state_ := false,
                    conn_data_ := false }
  if close && hadData then (s, cancelActs ++ [Action.closeUpstreamConnection])
  else (s, cancelActs)

/-- `Router::UpstreamRequest::resetStream` = `releaseConnection(true)`. -/
def resetStream (s : UpstreamRequestState) : UpstreamRequestState × List Action :=
  releaseConnection s true

/-- `Router::UpstreamRequest::onResponseComplete`: charge response timing,
flip response-complete, drop the connection-state reference and the borrowed
connection. -/
def onResponseComplete (s : UpstreamRequestState) :
    UpstreamRequestState × List Action :=
  let charged := chargeResponseTiming s
  ({ charged.1 with response_complete_ := true, conn_state_ := false,
                    conn_data_ := false }, charged.2)

/-- `Router::UpstreamRequest::onRequestComplete`: flip request-complete
(the timestamp capture is dropped). -/
def onRequestComplete (s : UpstreamRequestState) : UpstreamRequestState :=
  { s with request_complete_ := true }

/-- `Router::UpstreamRequest::onRequestStart`: re-emit the message begin into
the upstream buffer and resume decoding if the pipeline had been paused
(codec plumbing is dropped; only the resume effect is kept). -/
def onRequestStart (s : UpstreamRequestState) (continue_decoding : Bool) :
    UpstreamRequestState × List Action :=
  (s, if continue_decoding then [Action.continueDecoding] else [])

/-- `Router::UpstreamRequest::onPoolFailure`: clear the pending handle,
record the selected host, and mimic an upstream reset. -/
def onPoolFailure (s : UpstreamRequestState) (reason : PoolFailureReason)
    (host : Option String) : UpstreamRequestState × List Action :=
  let s := { s with conn_pool_handle_ := false }
  let s := { s with upstream_host_ := host }
  onResetStream s reason

/-- `Router::UpstreamRequest::onPoolReady`: record the host, report a local
connect success, take the borrowed connection (clearing the pending handle),
materialize the per-connection state, then either transmit an upgrade request
and wait (`upgradePending`, standing for a non-null
`protocol_->attemptUpgrade` result) or proceed to request start. -/
def onPoolReady (s : UpstreamRequestState) (host : String)
    (upgradePending : Bool) : UpstreamRequestState × List Action :=
  let continue_decoding := s.conn_pool_handle_
  let s := { s with upstream_host_ := some host }
  let acts := [Action.putOutlierResult OutlierResult.LocalOriginConnectSuccess]
  let s := { s with conn_data_ := true, conn_pool_handle_ := false,
                    conn_state_ := true }
  if upgradePending then
    ({ s with upgrade_response_ := true }, acts)
  else
    let started := onRequestStart s continue_decoding
    (started.1, acts ++ started.2)

/-- `Router::UpstreamRequest::start`: `handleReturned` stands for
`conn_pool_data_.newConnection` handing back a cancellable handle (the pool
will call back later); in that case record it and pause. Otherwise the pool
already invoked `onPoolReady`/`onPoolFailure` synchronously (modelled as
separate operations) and `start` pauses while an upgrade response or a host
is outstanding. -/
def UpstreamRequest.start (s : UpstreamRequestState) (handleReturned : Bool) :
    UpstreamRequestState × FilterStatus :=
  if handleReturned then
    ({ s with conn_pool_handle_ := true }, FilterStatus.StopIteration)
  else if s.upgrade_response_ then (s, FilterStatus.StopIteration)
  else if s.upstream_host_.isNone then (s, FilterStatus.StopIteration)
  else (s, FilterStatus.Continue)

/-- Destructor of `Router::UpstreamRequest`: cancel an outstanding pool
acquisition if one remains. -/
def UpstreamRequest.destroy (s : UpstreamRequestState) : List Action :=
  if s.conn_pool_handle_ then [Action.cancelPoolAcquisition] else []

/-- `Network::ConnectionEvent` values delivered to `Router::onEvent`. -/
inductive ConnectionEvent where
  | RemoteClose
  | LocalClose
  | Connected
deriving DecidableEq

/-- `Router::onEvent`: translate a close event into a reset with a
distinguishing reason, then release the borrowed connection without forcing
a close. `Connected` is consumed by the pool and unreachable (`none`). -/
def Router.onEvent (s : UpstreamRequestState) (event : ConnectionEvent) :
    Option (UpstreamRequestState × List Action) :=
  match event with
  | ConnectionEvent.RemoteClose =>
      let r := onResetStream s PoolFailureReason.RemoteConnectionFailure
      let rel := releaseConnection r.1 false
      some (rel.1, r.2 ++ rel.2)
  | ConnectionEvent.LocalClose =>
      let r := onResetStream s PoolFailureReason.LocalConnectionFailure
      let rel := releaseConnection r.1 false
      some (rel.1, r.2 ++ rel.2)
  | ConnectionEvent.Connected => none

/-- True when the action list contains a locally synthesized reply. -/
def hasLocalReply (acts : List Action) : Bool :=
  acts.any fun a =>
    match a with
    | Action.sendLocalReply _ _ _ => true
    | _ => false

/-- True when the action list force-terminates the downstream connection. -/
def hasDownstreamReset (acts : List Action) : Bool :=
  acts.any fun a =>
    match a with
    | Action.resetDownstreamConnection => true
    | _ => false

/-- The mutual-exclusion invariant of the two connection handles: the pending
pool acquisition and the acquired connection are never both non-null. -/
def atMostOneConn (s : UpstreamRequestState) : Bool :=
  !(s.conn_pool_handle_ && s.conn_data_)

/-- A header-matcher set with no configured matchers: `matchHeaders` over an
empty matcher vector accepts every header collection. -/
def allowHeaders : Headers → Bool := fun _ => true

/-- A rule base with a static cluster name `c`, no configured header
matchers, no cluster header and no weighted clusters. -/
def baseNamed (c : String) : RouteEntryImplBase :=
  { cluster_name_ := c
    headersMatchFn := allowHeaders
    cluster_header_ := ""
    weighted_clusters_ := []
    total_cluster_weight_ := 0
    strip_service_name_ := false }

/-- The sample rule base routing statically to cluster `"c"`. -/
def baseC : RouteEntryImplBase := baseNamed "c"

/-- The service-name rule with normalized name `"foo:"` and the given
inversion flag, over `baseC`. -/
def svcFoo (b : Bool) : ServiceNameRouteEntryImpl :=
  { base := baseC, service_name_ := "foo:", invert_ := b }

/-- A call carrying the given method name and no headers. -/
def callWith (mn : String) : MessageMetadata :=
  { methodName? := some mn, messageType_ := MessageType.Call, headers := [] }

/-- A call carrying no method name and no headers. -/
def noMethodCall : MessageMetadata :=
  { methodName? := none, messageType_ := MessageType.Call, headers := [] }

/-- A rule base configured with cluster header `"x-cluster"`. -/
def headerBase : RouteEntryImplBase :=
  { cluster_name_ := "unused"
    headersMatchFn := allowHeaders
    cluster_header_ := "x-cluster"
    weighted_clusters_ := []
    total_cluster_weight_ := 0
    strip_service_name_ := false }

/-- A call carrying the multi-valued header `x-cluster: alpha, beta`. -/
def multiHeaderCall : MessageMetadata :=
  { methodName? := some "m"
    messageType_ := MessageType.Call
    headers := [("x-cluster", "alpha"), ("x-cluster", "beta")] }

/-- A rule base with the weighted-cluster list `a:2, b:3` (total weight 5),
built through the constructor so the total is precomputed. -/
def wBase : RouteEntryImplBase :=
  mkRouteEntryBase "w" allowHeaders ""
    [{ cluster_name_ := "a", cluster_weight_ := 2 },
     { cluster_name_ := "b", cluster_weight_ := 3 }] false

/-- A method-name rule with non-empty name `"x"` and inversion enabled. -/
def invRule : MethodNameRouteEntryImpl :=
  { base := baseC, method_name_ := "x", invert_ := true }

/-- First sample rule: method name `"m"` routing to cluster `"c1"`. -/
def ruleA : RouteRule :=
  RouteRule.method { base := baseNamed "c1", method_name_ := "m", invert_ := false }

/-- Second sample rule: method name `"m"` routing to cluster `"c2"`. -/
def ruleB : RouteRule :=
  RouteRule.method { base := baseNamed "c2", method_name_ := "m", invert_ := false }

/-- An upstream-request state for a non-oneway call whose request was fully
sent on a borrowed connection and whose response has not started. -/
def cexState : UpstreamRequestState :=
  { messageType := MessageType.Call
    conn_pool_handle_ := false
    conn_data_ := true
    conn_state_ := true
    upgrade_response_ := false
    upstream_host_ := some "10.0.0.1:9090"
    request_complete_ := true
    response_started_ := false
    response_complete_ := false
    charged_response_timing_ := false }

/-! ### Theorems -/

theorem chargeResponseTiming_cases (s : UpstreamRequestState) :
    chargeResponseTiming s = (s, [])
    ∨ chargeResponseTiming s =
        ({ s with charged_response_timing_ := true },
         [Action.chargeLatencyHistogram]) := by
  unfold chargeResponseTiming
  split
  · exact Or.inl rfl
  · exact Or.inr rfl

/-- C7: for every oneway call and every failure reason, `onResetStream`
force-terminates the downstream connection and emits no locally synthesized
reply. -/
theorem onResetStream_oneway_resets_downstream
    (s : UpstreamRequestState) (reason : PoolFailureReason)
    (h : s.messageType = MessageType.Oneway) :
    onResetStream s reason = (s, [Action.resetDownstreamConnection])
    ∧ hasLocalReply (onResetStream s reason).2 = false := by
  have h1 : onResetStream s reason = (s, [Action.resetDownstreamConnection]) := by
    unfold onResetStream
    simp [h]
  refine ⟨h1, ?_⟩
  rw [h1]
  rfl

theorem onResetStream_oneway_resets_downstream_witness :
    (initialUpstreamRequest MessageType.Oneway).messageType = MessageType.Oneway
    ∧ onResetStream (initialUpstreamRequest MessageType.Oneway)
        PoolFailureReason.Timeout
      = (initialUpstreamRequest MessageType.Oneway,
         [Action.resetDownstreamConnection])
    ∧ hasLocalReply (onResetStream (initialUpstreamRequest MessageType.Oneway)
        PoolFailureReason.Timeout).2 = false := by
  refine ⟨rfl, ?_, ?_⟩
  · exact (onResetStream_oneway_resets_downstream _ _ rfl).1
  · exact (onResetStream_oneway_resets_downstream _ _ rfl).2

/-- C8: `chargeResponseTiming` is idempotent — a second invocation leaves the
state unchanged and emits no actions, so two invocations in a row have the
same observable effect as one — and it is a no-op whenever the request was
never marked complete. -/
theorem chargeResponseTiming_idempotent (s : UpstreamRequestState) :
    chargeResponseTiming (chargeResponseTiming s).1
      = ((chargeResponseTiming s).1, [])
    ∧ (chargeResponseTiming s).2
        ++ (chargeResponseTiming (chargeResponseTiming s).1).2
      = (chargeResponseTiming s).2
    ∧ (s.request_complete_ = false → chargeResponseTiming s = (s, [])) := by
  have h1 : chargeResponseTiming (chargeResponseTiming s).1
      = ((chargeResponseTiming s).1, []) := by
    rcases chargeResponseTiming_cases s with h | h <;> rw [h]
    · exact h
    · unfold chargeResponseTiming
      simp
  refine ⟨h1, ?_, ?_⟩
  · rw [h1]
    exact List.append_nil _
  · intro h
    unfold chargeResponseTiming
    simp [h]

theorem chargeResponseTiming_idempotent_witness :
    (initialUpstreamRequest MessageType.Call).request_complete_ = false
    ∧ chargeResponseTiming (initialUpstreamRequest MessageType.Call)
        = (initialUpstreamRequest MessageType.Call, []) := by
  exact ⟨rfl, (chargeResponseTiming_idempotent _).2.2 rfl⟩

theorem resetRemoteOrTimeout_fst (s : UpstreamRequestState) (acts : List Action)
    (res : OutlierResult) : (resetRemoteOrTimeout s acts res).1 = s := by
  unfold resetRemoteOrTimeout
  split <;> rfl

theorem chargeResponseTiming_conn (s : UpstreamRequestState) :
    (chargeResponseTiming s).1.conn_pool_handle_ = s.conn_pool_handle_
    ∧ (chargeResponseTiming s).1.conn_data_ = s.conn_data_ := by
  rcases chargeResponseTiming_cases s with h | h <;> rw [h] <;> exact ⟨rfl, rfl⟩

theorem onResetStream_conn (s : UpstreamRequestState) (reason : PoolFailureReason) :
    (onResetStream s reason).1.conn_pool_handle_ = s.conn_pool_handle_
    ∧ (onResetStream s reason).1.conn_data_ = s.conn_data_ := by
  unfold onResetStream
  by_cases h : s.messageType = MessageType.Oneway
  · simp [h]
  · simp only [if_neg h]
    cases reason <;>
      simp [resetRemoteOrTimeout_fst, (chargeResponseTiming_conn s).1,
        (chargeResponseTiming_conn s).2]

theorem start_fst (s : UpstreamRequestState) (hr : Bool) :
    (UpstreamRequest.start s hr).1
      = if hr then { s with conn_pool_handle_ := true } else s := by
  cases hr
  · unfold UpstreamRequest.start
    simp only [Bool.false_eq_true, if_false]
    split
    · rfl
    · split <;> rfl
  · rfl

/-- C9: the mutual exclusion of the pending pool-acquisition handle and the
acquired connection handle is preserved by every public operation of the
upstream request — `start` (from a state with no acquired connection),
`onPoolReady`, `onPoolFailure`, `releaseConnection`, `onResponseComplete`,
`onResetStream` and `resetStream`. -/
theorem conn_handles_mutual_exclusion (s : UpstreamRequestState)
    (h : atMostOneConn s = true) :
    (∀ hr : Bool, s.conn_data_ = false →
        atMostOneConn (UpstreamRequest.start s hr).1 = true)
    ∧ (∀ (host : String) (upgradePending : Bool),
        atMostOneConn (onPoolReady s host upgradePending).1 = true)
    ∧ (∀ (reason : PoolFailureReason) (host : Option String),
        atMostOneConn (onPoolFailure s reason host).1 = true)
    ∧ (∀ close : Bool, atMostOneConn (releaseConnection s close).1 = true)
    ∧ atMostOneConn (onResponseComplete s).1 = true
    ∧ (∀ reason : PoolFailureReason,
        atMostOneConn (onResetStream s reason).1 = true)
    ∧ atMostOneConn (resetStream s).1 = true := by
  have hreset : ∀ reason, atMostOneConn (onResetStream s reason).1 = true := by
    intro reason
    unfold atMostOneConn
    rw [(onResetStream_conn s reason).1, (onResetStream_conn s reason).2]
    exact h
  have hrelease : ∀ close : Bool,
      atMostOneConn (releaseConnection s close).1 = true := by
    intro close
    by_cases hc : (close && s.conn_data_) = true <;>
      simp [releaseConnection, atMostOneConn, hc]
  refine ⟨?_, ?_, ?_, hrelease, ?_, hreset, hrelease true⟩
  · intro hr hd
    rw [start_fst]
    cases hr
    · simpa [atMostOneConn] using h
    · simp [atMostOneConn, hd]
  · intro host upgradePending
    unfold onPoolReady onRequestStart atMostOneConn
    cases upgradePending <;> simp
  · intro reason host
    unfold onPoolFailure atMostOneConn
    rw [(onResetStream_conn _ reason).1, (onResetStream_conn _ reason).2]
    rfl
  · unfold onResponseComplete atMostOneConn
    simp

theorem conn_handles_mutual_exclusion_witness :
    atMostOneConn
      (UpstreamRequest.start (initialUpstreamRequest MessageType.Call) true).1
      = true
    ∧ atMostOneConn
        (onPoolReady (initialUpstreamRequest MessageType.Call)
          "10.0.0.1:9090" false).1 = true := by
  have h := conn_handles_mutual_exclusion (initialUpstreamRequest MessageType.Call) rfl
  exact ⟨h.1 true rfl, h.2.1 "10.0.0.1:9090" false⟩

theorem chargeResponseTiming_preserves (s : UpstreamRequestState) :
    (chargeResponseTiming s).1.response_started_ = s.response_started_
    ∧ hostDescription (chargeResponseTiming s).1 = hostDescription s := by
  rcases chargeResponseTiming_cases s with h | h <;> rw [h] <;> exact ⟨rfl, rfl⟩

theorem resetRemoteOrTimeout_acts (s : UpstreamRequestState) (acts : List Action)
    (res : OutlierResult) :
    (resetRemoteOrTimeout s acts res).2
      = acts ++ [Action.putOutlierResult res]
        ++ (if s.response_started_ then [Action.resetDownstreamConnection]
            else [Action.sendLocalReply AppExceptionType.InternalError
              ("connection failure \x27" ++ hostDescription s ++ "\x27") true]) := by
  unfold resetRemoteOrTimeout
  by_cases h : s.response_started_ = true <;> simp [h]

theorem onResetStream_acts (s : UpstreamRequestState)
    (hmt : s.messageType ≠ MessageType.Oneway) :
    (onResetStream s PoolFailureReason.Overflow).2
      = (chargeResponseTiming s).2
        ++ [Action.sendLocalReply AppExceptionType.InternalError
            "thrift upstream request: too many connections" true]
    ∧ (onResetStream s PoolFailureReason.LocalConnectionFailure).2
      = (chargeResponseTiming s).2
        ++ [Action.putOutlierResult OutlierResult.LocalOriginConnectFailed,
            Action.resetDownstreamConnection]
    ∧ (onResetStream s PoolFailureReason.RemoteConnectionFailure).2
      = (chargeResponseTiming s).2
        ++ [Action.putOutlierResult OutlierResult.LocalOriginConnectFailed]
        ++ (if s.response_started_ then [Action.resetDownstreamConnection]
            else [Action.sendLocalReply AppExceptionType.InternalError
              ("connection failure \x27" ++ hostDescription s ++ "\x27") true])
    ∧ (onResetStream s PoolFailureReason.Timeout).2
      = (chargeResponseTiming s).2
        ++ [Action.putOutlierResult OutlierResult.LocalOriginTimeout]
        ++ (if s.response_started_ then [Action.resetDownstreamConnection]
            else [Action.sendLocalReply AppExceptionType.InternalError
              ("connection failure \x27" ++ hostDescription s ++ "\x27") true]) := by
  refine ⟨?_, ?_, ?_, ?_⟩
  · unfold onResetStream
    rw [if_neg hmt]
  · unfold onResetStream
    rw [if_neg hmt]
  · unfold onResetStream
    rw [if_neg hmt]
    show (resetRemoteOrTimeout (chargeResponseTiming s).1
      (chargeResponseTiming s).2 OutlierResult.LocalOriginConnectFailed).2 = _
    rw [resetRemoteOrTimeout_acts, (chargeResponseTiming_preserves s).1,
      (chargeResponseTiming_preserves s).2]
  · unfold onResetStream
    rw [if_neg hmt]
    show (resetRemoteOrTimeout (chargeResponseTiming s).1
      (chargeResponseTiming s).2 OutlierResult.LocalOriginTimeout).2 = _
    rw [resetRemoteOrTimeout_acts, (chargeResponseTiming_preserves s).1,
      (chargeResponseTiming_preserves s).2]

/-- C1 (amended): for a non-oneway call whose request was sent, a remote
connection failure or timeout makes `onResetStream` synthesize a local reply
naming the offending host when no response bytes were received, and
force-terminate the downstream connection without a reply when the response
had started; a local connection failure always force-terminates the
downstream connection without a reply; a pool overflow always sends a
generic reply without terminating the downstream connection. -/
theorem onResetStream_connection_failure_amended
    (s : UpstreamRequestState) (reason : PoolFailureReason)
    (hmt : s.messageType ≠ MessageType.Oneway)
    (hreq : s.request_complete_ = true) :
    ((reason = PoolFailureReason.RemoteConnectionFailure
        ∨ reason = PoolFailureReason.Timeout) →
      (s.response_started_ = false →
          hasLocalReply (onResetStream s reason).2 = true
        ∧ Action.sendLocalReply AppExceptionType.InternalError
            ("connection failure \x27" ++ hostDescription s ++ "\x27") true
            ∈ (onResetStream s reason).2
        ∧ hasDownstreamReset (onResetStream s reason).2 = false)
      ∧ (s.response_started_ = true →
          hasLocalReply (onResetStream s reason).2 = false
        ∧ hasDownstreamReset (onResetStream s reason).2 = true))
    ∧ (reason = PoolFailureReason.LocalConnectionFailure →
        hasLocalReply (onResetStream s reason).2 = false
      ∧ hasDownstreamReset (onResetStream s reason).2 = true)
    ∧ (reason = PoolFailureReason.Overflow →
        hasLocalReply (onResetStream s reason).2 = true
      ∧ hasDownstreamReset (onResetStream s reason).2 = false) := by
  obtain ⟨hov, hlo, hre, hti⟩ := onResetStream_acts s hmt
  refine ⟨?_, ?_, ?_⟩
  · rintro (rfl | rfl) <;> refine ⟨?_, ?_⟩ <;> intro hrs <;>
      simp only [hre, hti, hrs, Bool.false_eq_true, if_false, if_true] <;>
      rcases chargeResponseTiming_cases s with hch | hch <;> rw [hch] <;>
      simp [hasLocalReply, hasDownstreamReset]
  · rintro rfl
    rw [hlo]
    rcases chargeResponseTiming_cases s with hch | hch <;> rw [hch] <;>
      exact ⟨rfl, rfl⟩
  · rintro rfl
    rw [hov]
    rcases chargeResponseTiming_cases s with hch | hch <;> rw [hch] <;>
      exact ⟨rfl, rfl⟩

/-- C1 counterexample: a non-oneway call, request sent, no response bytes
received, hit by a local close (`LocalConnectionFailure`): the code sends no
locally synthesized reply — it force-terminates the downstream connection —
while the claim requires a synthesized reply whenever `responseStarted` is
false. -/
theorem onResetStream_local_failure_no_reply :
    cexState.messageType = MessageType.Call
    ∧ cexState.request_complete_ = true
    ∧ cexState.response_started_ = false
    ∧ hasLocalReply
        (onResetStream cexState PoolFailureReason.LocalConnectionFailure).2
        = false
    ∧ hasDownstreamReset
        (onResetStream cexState PoolFailureReason.LocalConnectionFailure).2
        = true := by
  exact ⟨rfl, rfl, rfl, rfl, rfl⟩

theorem onResetStream_connection_failure_amended_witness :
    hasLocalReply
      (onResetStream cexState PoolFailureReason.RemoteConnectionFailure).2
      = true
    ∧ Action.sendLocalReply AppExceptionType.InternalError
        ("connection failure \x27" ++ hostDescription cexState ++ "\x27") true
        ∈ (onResetStream cexState PoolFailureReason.RemoteConnectionFailure).2
    ∧ hasDownstreamReset
        (onResetStream cexState PoolFailureReason.RemoteConnectionFailure).2
        = false := by
  have h := onResetStream_connection_failure_amended cexState
    PoolFailureReason.RemoteConnectionFailure (by decide) rfl
  exact (h.1 (Or.inl rfl)).1 rfl

theorem route_skip_nonmatching (pre rest : List RouteRule)
    (m : MessageMetadata) (rv : Nat)
    (h : ∀ q ∈ pre, q.matches m rv = none) :
    RouteMatcher.route (pre ++ rest) m rv = RouteMatcher.route rest m rv := by
  induction pre with
  | nil => rfl
  | cons p ps ih =>
      have hp : p.matches m rv = none := h p (by simp)
      have hstep : RouteMatcher.route ((p :: ps) ++ rest) m rv
          = RouteMatcher.route (ps ++ rest) m rv := by
        show (match p.matches m rv with
              | some e => some e
              | none => RouteMatcher.route (ps ++ rest) m rv)
            = RouteMatcher.route (ps ++ rest) m rv
        rw [hp]
      rw [hstep]
      exact ih (fun q hq => h q (by simp [hq]))

/-- C2: the matcher scans the rules in configured order — if every rule
fails to match, no route is returned; and the route returned is the one of
the first matching rule, so when an earlier and a later rule both match the
same call, the earlier rule's resolved route wins. -/
theorem routeMatcher_first_match_wins (routes : List RouteRule)
    (m : MessageMetadata) (rv : Nat) :
    ((∀ r ∈ routes, r.matches m rv = none) →
      RouteMatcher.route routes m rv = none)
    ∧ (∀ (pre : List RouteRule) (r : RouteRule) (post : List RouteRule)
         (e : ResolvedRoute),
        routes = pre ++ r :: post →
        (∀ q ∈ pre, q.matches m rv = none) →
        r.matches m rv = some e →
        RouteMatcher.route routes m rv = some e) := by
  constructor
  · intro h
    have := route_skip_nonmatching routes [] m rv h
    rw [List.append_nil] at this
    exact this
  · intro pre r post e hsplit hpre hr
    rw [hsplit, route_skip_nonmatching pre (r :: post) m rv hpre]
    show (match r.matches m rv with
          | some e => some e
          | none => RouteMatcher.route post m rv) = some e
    rw [hr]

theorem routeMatcher_first_match_wins_witness :
    RouteMatcher.route [ruleA, ruleB] (callWith "m") 0
      = some (ResolvedRoute.staticCluster "c1") := by
  exact (routeMatcher_first_match_wins [ruleA, ruleB] (callWith "m") 0).2
    [] ruleA [ruleB] (ResolvedRoute.staticCluster "c1") rfl
    (by intro q hq; simp at hq) (by decide)

/-- C3: the service-name constructor normalizes the configured name `"foo"`
to `"foo:"` (an empty name and a name already ending in the delimiter are
left alone); the rule then matches exactly the calls whose method name has
the normalized name as a prefix, XORed with the inversion flag — so `"foo"`
matches `"foo:bar"` and `"foo:"` but not `"foobar"` or `"bar:foo"`. -/
theorem serviceName_normalization_and_matching :
    (∀ b : Bool,
      ServiceNameRouteEntryImpl.make baseC "foo" b = Except.ok (svcFoo b))
    ∧ ServiceNameRouteEntryImpl.make baseC "" false
        = Except.ok { base := baseC, service_name_ := "", invert_ := false }
    ∧ ServiceNameRouteEntryImpl.make baseC "bar:" false
        = Except.ok { base := baseC, service_name_ := "bar:", invert_ := false }
    ∧ (svcFoo false).matches (callWith "foo:bar") 0
        = some (ResolvedRoute.staticCluster "c")
    ∧ (svcFoo false).matches (callWith "foo:") 0
        = some (ResolvedRoute.staticCluster "c")
    ∧ (svcFoo false).matches (callWith "foobar") 0 = none
    ∧ (svcFoo false).matches (callWith "bar:foo") 0 = none
    ∧ (∀ (b : Bool) (m : MessageMetadata) (rv : Nat),
        (svcFoo b).matches m rv
          = if Bool.xor (m.hasMethodName && strStartsWith m.methodName "foo:") b
            then some (ResolvedRoute.staticCluster "c")
            else none) := by
  refine ⟨?_, rfl, rfl, by decide, by decide, by decide, by decide, ?_⟩
  · intro b
    cases b <;> rfl
  · intro b m rv
    simp [ServiceNameRouteEntryImpl.matches, svcFoo, baseC, baseNamed,
      allowHeaders, RouteEntryImplBase.headersMatch,
      RouteEntryImplBase.clusterEntry]

theorem pickGo_mem_some (sel : Nat) (l : List WeightedClusterEntry) :
    ∀ acc : Nat, sel < acc + sumWeights l → acc ≤ sel →
    ∃ c, c ∈ l ∧ pickGo sel acc l = some c := by
  induction l with
  | nil =>
      intro acc h hacc
      exfalso
      simp [sumWeights] at h
      omega
  | cons c rest ih =>
      intro acc h hacc
      by_cases hlt : sel < acc + c.cluster_weight_
      · exact ⟨c, by simp, by unfold pickGo; rw [if_pos hlt]⟩
      · have hw : sumWeights (c :: rest) = c.cluster_weight_ + sumWeights rest := rfl
        rw [hw] at h
        obtain ⟨d, hd, hp⟩ := ih (acc + c.cluster_weight_) (by omega) (by omega)
        exact ⟨d, by simp [hd], by unfold pickGo; rw [if_neg hlt]; exact hp⟩

/-- C4: for a rule whose weighted list was built with the precomputed total
weight `W > 0`, `clusterEntry` always selects exactly one weighted entry of
the list, and the selection depends only on the draw modulo `W` — two draws
congruent modulo `W` (even with different call metadata) resolve the same
entry. -/
theorem clusterEntry_weighted_deterministic
    (e : RouteEntryImplBase) (m1 m2 : MessageMetadata) (d1 d2 : Nat)
    (hsum : e.total_cluster_weight_ = sumWeights e.weighted_clusters_)
    (hpos : 0 < e.total_cluster_weight_)
    (hmod : d1 % e.total_cluster_weight_ = d2 % e.total_cluster_weight_) :
    (∃ c, c ∈ e.weighted_clusters_
      ∧ e.clusterEntry d1 m1 = some (ResolvedRoute.weightedEntry c))
    ∧ e.clusterEntry d1 m1 = e.clusterEntry d2 m2 := by
  have hne : e.weighted_clusters_ ≠ [] := by
    intro hnil
    rw [hnil] at hsum
    simp [sumWeights] at hsum
    omega
  have hsel : d1 % e.total_cluster_weight_ < e.total_cluster_weight_ :=
    Nat.mod_lt _ hpos
  obtain ⟨c, hc, hpk⟩ := pickGo_mem_some (d1 % e.total_cluster_weight_)
    e.weighted_clusters_ 0 (by omega) (Nat.zero_le _)
  constructor
  · refine ⟨c, hc, ?_⟩
    unfold RouteEntryImplBase.clusterEntry
    rw [if_pos hne]
    unfold pickCluster
    rw [hpk]
    rfl
  · unfold RouteEntryImplBase.clusterEntry
    simp only [if_pos hne]
    unfold pickCluster
    rw [hmod]

theorem clusterEntry_weighted_deterministic_witness :
    (∃ c, c ∈ wBase.weighted_clusters_
      ∧ wBase.clusterEntry 7 noMethodCall = some (ResolvedRoute.weightedEntry c))
    ∧ wBase.clusterEntry 7 noMethodCall = wBase.clusterEntry 12 noMethodCall := by
  exact clusterEntry_weighted_deterministic wBase noMethodCall noMethodCall
    7 12 rfl (by decide) (by decide)

/-- C5: for a rule configured with a cluster header (and no weighted list),
an absent header makes `clusterEntry` yield no route — and the whole rule
behaves as a non-match, so the matcher falls through to the remaining
rules — while a present multi-valued header resolves to its first value. -/
theorem clusterEntry_cluster_header_behavior
    (e : RouteEntryImplBase) (m : MessageMetadata) (rv : Nat)
    (hw : e.weighted_clusters_ = [])
    (hh : e.cluster_header_ ≠ "") :
    (headersGet m.headers e.cluster_header_ = [] →
        e.clusterEntry rv m = none
      ∧ ∀ rest : List RouteRule,
          RouteMatcher.route
            (RouteRule.method
              { base := e, method_name_ := "", invert_ := false } :: rest) m rv
          = RouteMatcher.route rest m rv)
    ∧ (∀ (v : String) (vs : List String),
        headersGet m.headers e.cluster_header_ = v :: vs →
        e.clusterEntry rv m = some (ResolvedRoute.headerCluster v)) := by
  constructor
  · intro hget
    have hce : e.clusterEntry rv m = none := by
      unfold RouteEntryImplBase.clusterEntry
      rw [if_neg (by simp [hw]), if_pos hh, hget]
    refine ⟨hce, ?_⟩
    intro rest
    have hm : (RouteRule.method
        { base := e, method_name_ := "", invert_ := false }).matches m rv = none := by
      show MethodNameRouteEntryImpl.matches _ m rv = none
      simp [MethodNameRouteEntryImpl.matches, RouteEntryImplBase.headersMatch, hce]
    show (match (RouteRule.method
          { base := e, method_name_ := "", invert_ := false }).matches m rv with
        | some r => some r
        | none => RouteMatcher.route rest m rv) = RouteMatcher.route rest m rv
    rw [hm]
  · intro v vs hget
    unfold RouteEntryImplBase.clusterEntry
    rw [if_neg (by simp [hw]), if_pos hh, hget]

theorem clusterEntry_cluster_header_behavior_witness :
    headerBase.clusterEntry 0 multiHeaderCall
      = some (ResolvedRoute.headerCluster "alpha")
    ∧ headerBase.clusterEntry 0 noMethodCall = none := by
  constructor
  · exact (clusterEntry_cluster_header_behavior headerBase multiHeaderCall 0
      rfl (by decide)).2 "alpha" ["beta"] (by decide)
  · exact ((clusterEntry_cluster_header_behavior headerBase noMethodCall 0
      rfl (by decide)).1 rfl).1

theorem append_colon_ne_empty (s : String) : s ++ ":" ≠ "" := by
  intro h
  have hd := congrArg String.data h
  simp [String.data_append] at hd

theorem buildRoute_ok_no_empty_invert (cfg : RouteConfig) (r : RouteRule)
    (h : buildRoute cfg = Except.ok r) :
    ¬(r.matchName = "" ∧ r.invertFlag = true) := by
  cases cfg with
  | methodCfg base name invert =>
      simp only [buildRoute, MethodNameRouteEntryImpl.make] at h
      by_cases hc : name = "" ∧ invert = true
      · rw [if_pos hc] at h
        simp [Except.map] at h
      · rw [if_neg hc] at h
        simp only [Except.map] at h
        injection h with h
        subst h
        exact hc
  | serviceCfg base name invert =>
      simp only [buildRoute, ServiceNameRouteEntryImpl.make] at h
      by_cases hc : name = "" ∧ invert = true
      · rw [if_pos hc] at h
        simp [Except.map] at h
      · rw [if_neg hc] at h
        simp only [Except.map] at h
        injection h with h
        subst h
        intro hco
        apply hc
        refine ⟨?_, hco.2⟩
        have h1 := hco.1
        by_cases hn : name = ""
        · exact hn
        · exfalso
          by_cases hsend : strEndsWith name ":" = false
          · rw [show (RouteRule.service
                { base := base
                  service_name_ :=
                    if name ≠ "" ∧ strEndsWith name ":" = false then name ++ ":"
                    else name
                  invert_ := invert }).matchName
                = (if name ≠ "" ∧ strEndsWith name ":" = false then name ++ ":"
                   else name) from rfl, if_pos ⟨hn, hsend⟩] at h1
            exact append_colon_ne_empty name h1
          · rw [show (RouteRule.service
                { base := base
                  service_name_ :=
                    if name ≠ "" ∧ strEndsWith name ":" = false then name ++ ":"
                    else name
                  invert_ := invert }).matchName
                = (if name ≠ "" ∧ strEndsWith name ":" = false then name ++ ":"
                   else name) from rfl, if_neg (by intro hand; exact hsend hand.2)]
              at h1
            exact hn h1

/-- C6: a method-name or service-name rule configured with an empty match
name and inversion enabled is rejected by the constructor at build time, so
a successfully built `RouteMatcher` contains no rule with an empty match
name and inversion — such a rule is never evaluated at call time. -/
theorem empty_name_with_invert_rejected :
    (∀ base : RouteEntryImplBase,
      MethodNameRouteEntryImpl.make base "" true
        = Except.error "Cannot have an empty method name with inversion enabled")
    ∧ (∀ base : RouteEntryImplBase,
      ServiceNameRouteEntryImpl.make base "" true
        = Except.error "Cannot have an empty service name with inversion enabled")
    ∧ (∀ (cfgs : List RouteConfig) (rules : List RouteRule),
        RouteMatcher.build cfgs = Except.ok rules →
        ∀ r ∈ rules, ¬(r.matchName = "" ∧ r.invertFlag = true)) := by
  refine ⟨fun base => rfl, fun base => rfl, ?_⟩
  intro cfgs
  induction cfgs with
  | nil =>
      intro rules h r hr
      unfold RouteMatcher.build at h
      injection h with h
      subst h
      simp at hr
  | cons cfg rest ih =>
      intro rules h r hr
      unfold RouteMatcher.build at h
      cases hb : buildRoute cfg with
      | error msg => rw [hb] at h; exact absurd h (by simp)
      | ok r0 =>
          rw [hb] at h
          cases hrest : RouteMatcher.build rest with
          | error msg => rw [hrest] at h; exact absurd h (by simp)
          | ok rs =>
              rw [hrest] at h
              injection h with h
              subst h
              rcases List.mem_cons.mp hr with hr0 | hrs
              · subst hr0
                exact buildRoute_ok_no_empty_invert cfg r hb
              · exact ih rs hrest r hrs

theorem empty_name_with_invert_rejected_witness :
    ¬((RouteRule.method
        { base := baseC, method_name_ := "m", invert_ := false }).matchName = ""
      ∧ (RouteRule.method
        { base := baseC, method_name_ := "m", invert_ := false }).invertFlag
        = true) := by
  exact empty_name_with_invert_rejected.2.2
    [RouteConfig.methodCfg baseC "m" false]
    [RouteRule.method { base := baseC, method_name_ := "m", invert_ := false }]
    rfl _ (by simp)

/-- C10 counterexample: a method-name rule with the non-empty name `"x"` but
inversion enabled does match a call that carries no method name at all (the
guarded predicate is false, the inversion flips it to true), refuting the
claim that a non-empty-name rule never matches such a call. -/
theorem inverted_method_rule_matches_missing_method :
    invRule.method_name_ ≠ ""
    ∧ noMethodCall.methodName? = none
    ∧ invRule.matches noMethodCall 0 = some (ResolvedRoute.staticCluster "c") := by
  exact ⟨by decide, rfl, by decide⟩

/-- C10 (amended): a method-name rule with an empty configured name and
inversion disabled matches every call, including calls without a method
name; and a method-name rule with a non-empty configured name and inversion
disabled never matches a call that lacks a method name (the has-method-name
check guards the equality comparison). -/
theorem methodName_wildcard_and_missing_method_amended :
    (∀ (mn : Option String) (mt : MessageType) (hs : Headers) (rv : Nat),
      MethodNameRouteEntryImpl.matches
        { base := baseC, method_name_ := "", invert_ := false }
        { methodName? := mn, messageType_ := mt, headers := hs } rv
      = some (ResolvedRoute.staticCluster "c"))
    ∧ (∀ (e : MethodNameRouteEntryImpl) (m : MessageMetadata) (rv : Nat),
        e.method_name_ ≠ "" → e.invert_ = false → m.methodName? = none →
        e.matches m rv = none) := by
  constructor
  · intro mn mt hs rv
    simp [MethodNameRouteEntryImpl.matches, RouteEntryImplBase.headersMatch,
      baseC, baseNamed, allowHeaders, RouteEntryImplBase.clusterEntry]
  · intro e m rv hname hinv hmn
    have h1 : m.hasMethodName = false := by
      simp [MessageMetadata.hasMethodName, hmn]
    simp [MethodNameRouteEntryImpl.matches, h1, hinv, hname]

theorem methodName_wildcard_and_missing_method_amended_witness :
    MethodNameRouteEntryImpl.matches
      { base := baseC, method_name_ := "x", invert_ := false }
      noMethodCall 0 = none := by
  exact methodName_wildcard_and_missing_method_amended.2
    { base := baseC, method_name_ := "x", invert_ := false } noMethodCall 0
    (by decide) rfl rfl

end ThriftRouter
